import Mathlib

/-!
Verification development for the botty event dispatcher ("the Brain",
package `brain`), its adapters and its storage layer.

The Go source is embedded shallowly:

* Reflected Go types (`reflect.Type`) are modelled by natural-number type
  identifiers together with a `TypeEnv` that records the reflection facts the
  code queries: whether a type is an interface, whether it is a pointer, and
  which types implement `context.Context`, `error`, or another interface.
* The handler registry `map[reflect.Type][]eventHandler` is modelled as an
  association list with distinct keys; since Go map iteration order is
  unspecified, `determineHandlers` takes the iteration sequence as an explicit
  argument that must be a permutation of the registry entries.
* The channel-based queue (`consumeEvents`), the dispatch loop
  (`HandleEvents`) and the shutdown handshake are modelled as a small-step
  transition system over an explicit system state; unbuffered channel
  rendezvous are single atomic steps.
* Handler execution (`newHandlerFunc`, `executeEventHandler`) is modelled with
  explicit outcomes: a reflective call either returns (possibly with an error
  value) or panics; timeouts are modelled by comparing the handler's
  completion time against the configured deadline, `none` standing for a
  handler that never completes.
-/

namespace Botty

/-- Reflection environment: the facts about Go types that the brain package
queries through the `reflect` API. Type identifiers are natural numbers. -/
structure TypeEnv where
  /-- `t.Kind() == reflect.Interface` -/
  isInterface : Nat → Bool
  /-- `t.Kind() == reflect.Ptr` -/
  isPtr : Nat → Bool
  /-- `t.Implements(i)` for an interface identifier `i` -/
  implements : Nat → Nat → Bool
  /-- `t.Implements(contextInterface)` where `contextInterface` is
  `reflect.TypeOf((*context.Context)(nil)).Elem()` -/
  implsContext : Nat → Bool
  /-- `t.Implements(errorInterface)` where `errorInterface` is
  `reflect.TypeOf((*error)(nil)).Elem()` -/
  implsError : Nat → Bool

/-- Shape of a Go function value as seen by `reflect`: its parameter type
identifiers (`In(0), In(1), …`) and result type identifiers (`Out(0), …`). -/
structure FuncShape where
  params : List Nat
  results : List Nat
deriving DecidableEq, Repr

/-- Embeds `checkHandlerParams` from the brain package: validates the
parameter list of a handler function and extracts the payload event type
(the last parameter) and whether the handler takes a `context.Context`. -/
def checkHandlerParams (env : TypeEnv) (f : FuncShape) : Except String (Nat × Bool) :=
  let numParams := f.params.length
  if numParams = 0 ∨ numParams > 2 then
    .error "event handler needs one or two arguments"
  else
    let eventType := f.params.getD (numParams - 1) 0
    let withContext := numParams = 2
    if withContext ∧ env.implsContext (f.params.getD 1 0) then
      .error "event handler context must be the first argument"
    else if withContext ∧ ¬ env.implsContext (f.params.getD 0 0) then
      .error "event handler has two arguments but the first is not a context.Context"
    else if env.isPtr eventType then
      .error "event handler argument cannot be a pointer"
    else
      .ok (eventType, withContext)

/-- Embeds `checkHandlerReturnValues` from the brain package: a handler
returns nothing, or exactly one value implementing `error`. -/
def checkHandlerReturnValues (env : TypeEnv) (f : FuncShape) : Except String Bool :=
  match f.results with
  | [] => .ok false
  | [r] =>
      if env.implsError r then .ok true
      else .error "if the event handler has a return value it must implement the error interface"
  | _ => .error "event handler has more than one return value"

/-- Registry entries: `map[reflect.Type][]eventHandler`, as an association
list from event-type identifier to the handlers registered under that type in
registration order. Handlers are identified by natural numbers. -/
abbrev RegEntries := List (Nat × List Nat)

/-- Appending a handler to the map entry of its event type, mirroring
`b.handlers[eventType] = append(b.handlers[eventType], handlerFun)`. -/
def addToEntries : RegEntries → Nat → Nat → RegEntries
  | [], t, h => [(t, [h])]
  | (t', hh) :: rest, t, h =>
      if t' = t then (t', hh ++ [h]) :: rest
      else (t', hh) :: addToEntries rest t h

/-- Embeds `Brain.registerHandler`: validate the function shape and, on
success, append the handler to the entry keyed by its payload type. The
`isFunc` flag is `handlerType.Kind() == reflect.Func`. -/
def registerHandler (env : TypeEnv) (entries : RegEntries) (isFunc : Bool)
    (f : FuncShape) (h : Nat) : Except String RegEntries :=
  if ¬ isFunc then .error "Event handler is not a function"
  else
    match checkHandlerParams env f with
    | .error e => .error e
    | .ok (eventType, _withContext) =>
        match checkHandlerReturnValues env f with
        | .error e => .error e
        | .ok _returnsErr => .ok (addToEntries entries eventType h)

/-- State owned by the Brain that registration touches: the handler map and
the aggregated `RegistrationErrs` list. -/
structure RegState where
  entries : RegEntries
  registrationErrs : List String
deriving DecidableEq, Repr

/-- Embeds `Brain.RegisterHandler`: on a validation error the error is
appended to `RegistrationErrs`; nothing is thrown and no handler is added. -/
def RegisterHandler (env : TypeEnv) (st : RegState) (isFunc : Bool)
    (f : FuncShape) (h : Nat) : RegState :=
  match registerHandler env st.entries isFunc f h with
  | .error e => { st with registrationErrs := st.registrationErrs ++ [e] }
  | .ok entries => { st with entries := entries }

/-- Contribution of one registry map entry to `determineHandlers eventType`:
the handlers are appended once if the key equals the event type, and once
more if the key is an interface type the event type implements (two
independent `if` statements in the Go source). -/
def entryContrib (env : TypeEnv) (eventType : Nat) (p : Nat × List Nat) : List Nat :=
  (if p.1 = eventType then p.2 else []) ++
    (if env.isInterface p.1 ∧ env.implements eventType p.1 then p.2 else [])

/-- Embeds `Brain.determineHandlers`: iterate over the handler map and
collect the handlers of every matching entry. Go map iteration order is
unspecified, so the iteration sequence `iter` is an explicit argument; a run
of the Go code corresponds to an `iter` that is a permutation of the
registry's entries. -/
def determineHandlers (env : TypeEnv) (iter : RegEntries) (eventType : Nat) : List Nat :=
  iter.foldl (fun acc p =>
    let acc1 := if p.1 = eventType then acc ++ p.2 else acc
    if env.isInterface p.1 ∧ env.implements eventType p.1 then acc1 ++ p.2 else acc1) []

/-- What `Brain.handleEvent` is invoked with during one run of the loop:
the synthetic `events.InitEvent`, an ordinary emitted event (identified by a
natural number), or the synthetic `events.ShutdownEvent`. -/
inductive Dispatch
  | initEvt
  | ev (e : Nat)
  | shutdownEvt
deriving DecidableEq, Repr

/-- State of the running system formed by one producer, the
`Brain.consumeEvents` goroutine and the `Brain.HandleEvents` loop.

`emitted` are the events the producer has not yet pushed into `eventsInput`
(the producer pushes them in list order and requests shutdown only after all
of them, matching the drain scenario of the spec); `queue` is the internal
buffer of `consumeEvents`; `dispatched` records every `handleEvent` call made
by the loop, in order. The Boolean flags record, in order of occurrence on
the shutdown path: the producer has sent the `shutdownRequest`
(`shutdownSent`), the loop has received it and executed `close(eventsInput)`
(`shutdownReceived` / `inputClosed`), `consumeEvents` has flushed its buffer
and executed `close(eventsLoop)` (`loopClosed`), the loop has dispatched the
synthetic `ShutdownEvent` (`shutdownDispatched`), and the loop has written to
the request's acknowledgment channel so that `Brain.Shutdown` returns
(`acked`). -/
structure BrainSys where
  emitted : List Nat
  queue : List Nat
  shutdownSent : Bool
  shutdownReceived : Bool
  inputClosed : Bool
  loopClosed : Bool
  shutdownDispatched : Bool
  acked : Bool
  dispatched : List Dispatch
deriving DecidableEq, Repr

/-- Initial state for a run in which the producer will emit `es` and then
request shutdown. `HandleEvents` dispatches the synthetic `InitEvent` before
entering its select loop, so it is already in the trace. -/
def initSys (es : List Nat) : BrainSys :=
  { emitted := es, queue := [], shutdownSent := false, shutdownReceived := false,
    inputClosed := false, loopClosed := false, shutdownDispatched := false,
    acked := false, dispatched := [Dispatch.initEvt] }

/-- Small-step transition relation of the system. Unbuffered-channel
rendezvous (a send completing exactly when the matching receive does) are
modelled as single atomic steps:

* `emit`: `Brain.Emit` sends on `eventsInput` and `consumeEvents` appends the
  event to its queue (only possible while `eventsInput` is open);
* `deliver`: `consumeEvents` sends the queue head on `eventsLoop` and the
  loop receives and runs `handleEvent` on it;
* `sendShutdown`: the producer, having emitted everything, sends the
  `shutdownRequest` on the `shutdown` channel;
* `recvShutdown`: the loop's `select` takes the shutdown case and executes
  `close(b.eventsInput)`;
* `closeLoop`: `consumeEvents` sees `eventsInput` closed with an empty
  remaining queue (after flushing via `deliver` steps) and executes
  `close(b.eventsLoop)`;
* `dispatchShutdown`: the loop receives the not-ok signal from the closed
  `eventsLoop` and dispatches the synthetic `ShutdownEvent`;
* `ack`: the loop writes to `shutdown.callback`, unblocking the caller of
  `Brain.Shutdown`, and returns. -/
inductive SysStep : BrainSys → BrainSys → Prop
  | emit (s : BrainSys) (e : Nat) (rest : List Nat) :
      s.emitted = e :: rest → s.inputClosed = false →
      SysStep s { s with emitted := rest, queue := s.queue ++ [e] }
  | deliver (s : BrainSys) (e : Nat) (rest : List Nat) :
      s.queue = e :: rest → s.loopClosed = false →
      SysStep s { s with queue := rest, dispatched := s.dispatched ++ [Dispatch.ev e] }
  | sendShutdown (s : BrainSys) :
      s.emitted = [] → s.shutdownSent = false →
      SysStep s { s with shutdownSent := true }
  | recvShutdown (s : BrainSys) :
      s.shutdownSent = true → s.shutdownReceived = false → s.loopClosed = false →
      SysStep s { s with shutdownReceived := true, inputClosed := true }
  | closeLoop (s : BrainSys) :
      s.inputClosed = true → s.queue = [] → s.loopClosed = false →
      SysStep s { s with loopClosed := true }
  | dispatchShutdown (s : BrainSys) :
      s.loopClosed = true → s.shutdownDispatched = false →
      SysStep s { s with shutdownDispatched := true,
                         dispatched := s.dispatched ++ [Dispatch.shutdownEvt] }
  | ack (s : BrainSys) :
      s.shutdownDispatched = true → s.acked = false →
      SysStep s { s with acked := true }

/-- Reachability of a system state from another by zero or more steps. -/
def SysReaches (s t : BrainSys) : Prop := Relation.ReflTransGen SysStep s t

/-- Invariant tying a reachable state of the run `initSys es` back to `es`:
the dispatch trace is the `InitEvent`, then the already-delivered ordinary
events `ds`, then the `ShutdownEvent` exactly if it has been dispatched; the
delivered events, the queue and the still-unemitted events concatenate to
`es` in order; and the shutdown-path flags occur in their causal order. -/
structure SysInv (es : List Nat) (s : BrainSys) : Prop where
  trace : ∃ ds : List Nat,
    s.dispatched = Dispatch.initEvt :: ds.map Dispatch.ev ++
      (if s.shutdownDispatched then [Dispatch.shutdownEvt] else []) ∧
    ds ++ s.queue ++ s.emitted = es
  recvSent : s.shutdownReceived = true → s.shutdownSent = true
  sentDone : s.shutdownSent = true → s.emitted = []
  inputRecv : s.inputClosed = s.shutdownReceived
  loopInput : s.loopClosed = true → s.inputClosed = true ∧ s.queue = []
  dispLoop : s.shutdownDispatched = true → s.loopClosed = true
  ackDisp : s.acked = true → s.shutdownDispatched = true

/-- Ordinary event payloads occurring in a dispatch trace, in order. -/
def evPayloads : List Dispatch → List Nat
  | [] => []
  | Dispatch.ev e :: rest => e :: evPayloads rest
  | _ :: rest => evPayloads rest

/-- Result of a call to `Brain.Emit`: the event is handed to the queue, or
the send panics because the channel is closed. -/
inductive EmitResult
  | enqueued (s : BrainSys)
  | panicked (msg : String)
deriving DecidableEq, Repr

/-- Embeds `Brain.Emit` together with the Go language rule that a send on a
closed channel panics: `Emit` performs an unguarded send on `b.eventsInput`,
the channel that the dispatch loop closes when it receives a shutdown
request. -/
def EmitCall (s : BrainSys) (e : Nat) : EmitResult :=
  if s.inputClosed then EmitResult.panicked "send on closed channel"
  else EmitResult.enqueued { s with queue := s.queue ++ [e] }

/-- Registration sequence: the (event type, handler id) of each successful
registration, in the order the registrations happened. -/
abbrev RegSeq := List (Nat × Nat)

/-- Registry contents after the successful registrations `regs`: each
registration appends its handler to the map entry of its event type. -/
def buildEntries (regs : RegSeq) : RegEntries :=
  regs.foldl (fun e p => addToEntries e p.1 p.2) []

/-- Handlers registered under exactly the key `k`, in registration order. -/
def keyClass (regs : RegSeq) (k : Nat) : List Nat :=
  (regs.filter (fun p => p.1 == k)).map Prod.snd

/-- Class (a) of the resolution contract: handlers registered under exactly
the runtime event type, in registration order. -/
def exactClass (regs : RegSeq) (eventType : Nat) : List Nat :=
  keyClass regs eventType

/-- Class (b) of the resolution contract: handlers registered under any
interface type the runtime event type implements, in registration order. -/
def ifaceClass (env : TypeEnv) (regs : RegSeq) (eventType : Nat) : List Nat :=
  (regs.filter (fun p => env.isInterface p.1 && env.implements eventType p.1)).map Prod.snd

/-- Handler list stored in the registry under key `k` (empty when absent). -/
def entryHandlers (e : RegEntries) (k : Nat) : List Nat :=
  (e.lookup k).getD []

/-- Keys of the registry map, in entry order. -/
def entryKeys (e : RegEntries) : List Nat :=
  e.map Prod.fst

/-- Invalid handler shapes enumerated by the registration claim: wrong
arity, pointer-typed payload (last) parameter, a two-parameter handler whose
first parameter does not implement `context.Context`, more than one return
value, or a single return value that does not implement `error`. -/
def invalidShape (env : TypeEnv) (f : FuncShape) : Prop :=
  f.params.length = 0 ∨ f.params.length > 2 ∨
  env.isPtr (f.params.getD (f.params.length - 1) 0) = true ∨
  (f.params.length = 2 ∧ env.implsContext (f.params.getD 0 0) = false) ∨
  f.results.length > 1 ∨
  (∃ r, f.results = [r] ∧ env.implsError r = false)

/-- Abstraction of one resolved handler as observed by `Brain.handleEvent`:
its identity, whether its body calls `FinishEventContent` (which sets the
dispatched event's `AbortEarly` flag through the context), and the error
value its wrapped call returns (`none` for a nil error). -/
structure DHandler where
  hid : Nat
  setsAbort : Bool
  err : Option String
deriving DecidableEq, Repr

/-- Handler loop of `Brain.handleEvent`: each handler runs (its error is only
logged), may set the event's `AbortEarly` flag, and after every handler call
the loop breaks if the flag is set. Returns the ids of the invoked handlers
in order, together with the event's final `AbortEarly` flag. -/
def runHandlerLoop (abortEarly : Bool) : List DHandler → List Nat × Bool
  | [] => ([], abortEarly)
  | h :: rest =>
      let abortEarly1 := abortEarly || h.setsAbort
      if abortEarly1 then ([h.hid], abortEarly1)
      else
        let r := runHandlerLoop abortEarly1 rest
        (h.hid :: r.1, r.2)

/-- Embeds `Brain.handleEvent` for one event whose resolved handlers are
`handlers` and whose completion callbacks are `callbacks`: run the handler
loop on a fresh event (`AbortEarly` starts false), then invoke every
completion callback in registration order. Returns the invoked handler ids
and the invoked callback ids. -/
def handleEventRun (handlers : List DHandler) (callbacks : List Nat) :
    List Nat × List Nat :=
  ((runHandlerLoop false handlers).1, callbacks)

/-- Dispatch of successive events by the loop: `Brain.handleEvent` receives
each event by value with its own `AbortEarly` flag, so the events are
processed independently, one after the other. -/
def dispatchEvents (evts : List (List DHandler × List Nat)) :
    List (List Nat × List Nat) :=
  evts.map (fun p => handleEventRun p.1 p.2)

/-- Outcome of the reflective call `handler.Call(args)` inside the closure
built by `newHandlerFunc`: the call returns with an error value (`none` for
a nil error), or the handler body panics with a message. -/
inductive CallOutcome
  | returns (err : Option String)
  | panicked (msg : String)
deriving DecidableEq, Repr

/-- Embeds the closure built by `newHandlerFunc`: the deferred `recover`
converts a panic inside the handler body into the returned error
`handler panic: msg`; a normal return passes the handler's error value
through when the handler declares an error return, and yields a nil error
otherwise. -/
def wrappedHandlerCall (returnsErr : Bool) : CallOutcome → Option String
  | CallOutcome.returns e => if returnsErr then e else none
  | CallOutcome.panicked m => some ("handler panic: " ++ m)

/-- Result of `Brain.executeEventHandler` as seen by the dispatch loop. -/
inductive ExecOutcome
  | completed (err : Option String)
  | deadlineExceeded
deriving DecidableEq, Repr

/-- One minute in nanoseconds: `time.Minute`, the handler timeout configured
by `NewBrain`. -/
def timeMinute : Nat := 60 * 1000000000

/-- Handler timeout field of the `Brain` value built by `NewBrain`. -/
def newBrainHandlerTimeout : Nat := timeMinute

/-- Embeds `Brain.executeEventHandler` with time modelled explicitly: the
handler goroutine writes to the `done` channel after `completion` time units
with error `res` (`none` standing for a handler that never completes). With
a positive `handlerTimeout` a deadline context is derived and the `select`
races the handler against the deadline, taking whichever comes first (the
handler wins an exact tie is not asserted; the theorems only use strict
orderings). With a zero timeout no deadline exists and the call waits for
the handler alone; the outer `none` means the call never returns. -/
def executeEventHandler (handlerTimeout : Nat) (completion : Option Nat)
    (res : Option String) : Option ExecOutcome :=
  if 0 < handlerTimeout then
    match completion with
    | none => some ExecOutcome.deadlineExceeded
    | some t =>
        if t < handlerTimeout then some (ExecOutcome.completed res)
        else some ExecOutcome.deadlineExceeded
  else
    match completion with
    | none => none
    | some _ => some (ExecOutcome.completed res)

/-- State of a `CLIAdapter` relevant to `Close`: whether the `closing`
channel is still non-nil. Both copies of the CLI adapter in the repository
have the identical `Close` method. -/
structure CLIAdapterState where
  closingNonNil : Bool
deriving DecidableEq, Repr

/-- Embeds `CLIAdapter.Close`: when `closing` is already nil the call
returns the error `already closed`; otherwise it performs the handshake with
the adapter loop, receives the result of `a.Input.Close()` (`inputCloseErr`,
possibly nil) and sets `closing` to nil. Returns (error, new state). -/
def cliClose (a : CLIAdapterState) (inputCloseErr : Option String) :
    Option String × CLIAdapterState :=
  if a.closingNonNil then (inputCloseErr, { closingNonNil := false })
  else (some "already closed", a)

/-- Embeds `DiscordAdapter.Close`: the body is `return nil`, whatever the
number of earlier calls (`callIndex`). -/
def discordClose (callIndex : Nat) : Option String :=
  let _ := callIndex
  none

/-- Minimal JSON value domain for the storage model. -/
inductive JsonValue
  | null
  | bool (b : Bool)
  | num (n : Int)
  | str (s : List Char)
deriving DecidableEq, Repr

/-- Whitespace skipping of the JSON scanner. -/
def skipJsonSpace : List Char → List Char
  | [] => []
  | c :: rest =>
      if c = ' ' ∨ c = '\t' ∨ c = '\n' ∨ c = '\r' then skipJsonSpace rest
      else c :: rest

/-- Reads a JSON string body up to the closing quote (no escapes, which the
stored values of this repository do not use). -/
def readJsonString : List Char → Option (List Char × List Char)
  | [] => none
  | c :: rest =>
      if c = '"' then some ([], rest)
      else match readJsonString rest with
        | some (s, left) => some (c :: s, left)
        | none => none

/-- Reads a run of decimal digits as a number. -/
def readJsonDigits (acc : Int) : List Char → Int × List Char
  | [] => (acc, [])
  | c :: rest =>
      if c.isDigit then readJsonDigits (acc * 10 + (c.toNat - 48)) (c :: rest).tail
      else (acc, c :: rest)

/-- Models `encoding/json.Unmarshal` (Go standard library, external to this
repository) to the depth the storage layer exercises: after skipping leading
whitespace, an empty document fails with the scanner error
`unexpected end of JSON input` — this is what decoding the nil byte slice of
a missing key produces — and the primitive documents the bot stores (null,
booleans, numbers and strings) are parsed; any other document shape is
reported as a syntax error. Returns `none` on success. -/
def jsonUnmarshal (data : List Char) : Except String JsonValue :=
  match skipJsonSpace data with
  | [] => Except.error "unexpected end of JSON input"
  | c :: rest =>
      if c = 'n' ∧ rest = ['u', 'l', 'l'] then Except.ok JsonValue.null
      else if c = 't' ∧ rest = ['r', 'u', 'e'] then Except.ok (JsonValue.bool true)
      else if c = 'f' ∧ rest = ['a', 'l', 's', 'e'] then Except.ok (JsonValue.bool false)
      else if c = '"' then
        match readJsonString rest with
        | some (s, []) => Except.ok (JsonValue.str s)
        | _ => Except.error "unexpected end of JSON input"
      else if c.isDigit then
        match readJsonDigits 0 (c :: rest) with
        | (n, []) => Except.ok (JsonValue.num n)
        | _ => Except.error "invalid character after top-level value"
      else if c = '-' then
        match readJsonDigits 0 rest with
        | (n, []) => Except.ok (JsonValue.num (-n))
        | _ => Except.error "invalid character after top-level value"
      else Except.error "invalid character looking for beginning of value"

/-- The in-memory `Memory` implementation: `data` is the underlying
`map[string][]byte`, modelled as an association list with distinct keys. -/
structure InMemory where
  data : List (String × List Char)
deriving DecidableEq, Repr

/-- Embeds `inMemory.Get`: the map read `value, ok := m.data[key]` — a
missing key yields the zero value of `[]byte` (the nil slice, here `[]`) and
`ok = false`; the returned error is always nil. -/
def inMemoryGet (m : InMemory) (key : String) : List Char × Bool × Option String :=
  match m.data.lookup key with
  | some v => (v, true, none)
  | none => ([], false, none)

/-- Embeds `Storage.Get` with the in-memory backend and the JSON encoder:
fetch the raw data; a fetch error is wrapped and returned with `false`; when
the Go caller passed `nil` as the decode target (`targetNil`) return
`(ok, nil)` without decoding; otherwise decode, reporting a decode failure
as `(false, wrapped error)` and success as `(true, nil)`. -/
def storageGet (m : InMemory) (key : String) (targetNil : Bool) :
    Bool × Option String :=
  match inMemoryGet m key with
  | (_, _, some e) => (false, some ("Failed to fetch value " ++ e ++ " "))
  | (data, ok, none) =>
      if targetNil then (ok, none)
      else
        match jsonUnmarshal data with
        | Except.error e => (false, some ("Failed to Decode value " ++ e ++ " "))
        | Except.ok _ => (true, none)

/-- Concrete reflection environment for the resolution examples: type 0 is a
concrete payload type, types 1 and 2 are interface types that type 0
implements. -/
def cexEnv : TypeEnv :=
  { isInterface := fun t => t == 1 || t == 2
    isPtr := fun _ => false
    implements := fun t i => t == 0 && (i == 1 || i == 2)
    implsContext := fun t => t == 9
    implsError := fun t => t == 8 }

/-- Concrete registration sequence: handler 10 under interface 1, then
handler 20 under interface 2. -/
def cexRegs : RegSeq := [(1, 10), (2, 20)]

/-- An iteration order of the registry map that a Go run may produce: the
entry of interface 2 before the entry of interface 1. -/
def cexIter : RegEntries := [(2, [20]), (1, [10])]

/-- Intermediate states of a concrete drain run with events [1, 2]:
after the producer emitted event 1. -/
def drainW1 : BrainSys :=
  { emitted := [2], queue := [1], shutdownSent := false, shutdownReceived := false,
    inputClosed := false, loopClosed := false, shutdownDispatched := false,
    acked := false, dispatched := [Dispatch.initEvt] }

/-- Drain run: after the producer emitted event 2. -/
def drainW2 : BrainSys := { drainW1 with emitted := [], queue := [1, 2] }

/-- Drain run: after the producer sent the shutdown request. -/
def drainW3 : BrainSys := { drainW2 with shutdownSent := true }

/-- Drain run: after the loop received and handled event 1. -/
def drainW4 : BrainSys :=
  { drainW3 with queue := [2], dispatched := [Dispatch.initEvt, Dispatch.ev 1] }

/-- Drain run: after the loop received the shutdown request and closed the
input channel. -/
def drainW5 : BrainSys := { drainW4 with shutdownReceived := true, inputClosed := true }

/-- Drain run: after the loop received and handled the flushed event 2. -/
def drainW6 : BrainSys :=
  { drainW5 with
    queue := []
    dispatched := [Dispatch.initEvt, Dispatch.ev 1, Dispatch.ev 2] }

/-- Drain run: after `consumeEvents` closed the loop channel. -/
def drainW7 : BrainSys := { drainW6 with loopClosed := true }

/-- Drain run: after the loop dispatched the synthetic `ShutdownEvent`. -/
def drainW8 : BrainSys :=
  { drainW7 with
    shutdownDispatched := true
    dispatched := [Dispatch.initEvt, Dispatch.ev 1, Dispatch.ev 2,
      Dispatch.shutdownEvt] }

/-- Drain run: after the loop signalled the shutdown acknowledgment. -/
def drainW9 : BrainSys := { drainW8 with acked := true }

theorem sysInv_init (es : List Nat) : SysInv es (initSys es) := by
  refine ⟨⟨[], by simp [initSys], by simp [initSys]⟩, ?_, ?_, ?_, ?_, ?_, ?_⟩ <;>
    simp [initSys]

theorem sysInv_step {es : List Nat} {s t : BrainSys} (inv : SysInv es s)
    (st : SysStep s t) : SysInv es t := by
  obtain ⟨ds, hd, hsum⟩ := inv.trace
  cases st with
  | emit e rest hem hic =>
      refine ⟨⟨ds, hd, ?_⟩, inv.recvSent, ?_, inv.inputRecv, ?_,
        inv.dispLoop, inv.ackDisp⟩
      · rw [hem] at hsum
        simpa [List.append_assoc] using hsum
      · intro h
        have h2 := inv.sentDone h
        rw [h2] at hem
        simp at hem
      · intro h
        have h2 := (inv.loopInput h).1
        simp [hic] at h2
  | deliver e rest hq hlc =>
      have hnd : s.shutdownDispatched = false := by
        cases h : s.shutdownDispatched
        · rfl
        · have h2 := inv.dispLoop h
          simp [hlc] at h2
      refine ⟨⟨ds ++ [e], ?_, ?_⟩, inv.recvSent, inv.sentDone, inv.inputRecv, ?_,
        inv.dispLoop, inv.ackDisp⟩
      · simp [hd, hnd]
      · rw [hq] at hsum
        simpa [List.append_assoc] using hsum
      · intro h
        simp [hlc] at h
  | sendShutdown hem hns =>
      exact ⟨⟨ds, hd, hsum⟩, fun _ => rfl, fun _ => hem, inv.inputRecv,
        inv.loopInput, inv.dispLoop, inv.ackDisp⟩
  | recvShutdown hsent hnr hlc =>
      refine ⟨⟨ds, hd, hsum⟩, fun _ => hsent, inv.sentDone, rfl, ?_,
        inv.dispLoop, inv.ackDisp⟩
      intro h
      simp [hlc] at h
  | closeLoop hic hq hlc =>
      exact ⟨⟨ds, hd, hsum⟩, inv.recvSent, inv.sentDone, inv.inputRecv,
        fun _ => ⟨hic, hq⟩, fun _ => rfl, inv.ackDisp⟩
  | dispatchShutdown hlc hnd =>
      refine ⟨⟨ds, ?_, hsum⟩, inv.recvSent, inv.sentDone, inv.inputRecv,
        inv.loopInput, fun _ => hlc, fun _ => rfl⟩
      simp [hd, hnd]
  | ack hsd hna =>
      exact ⟨⟨ds, hd, hsum⟩, inv.recvSent, inv.sentDone, inv.inputRecv,
        inv.loopInput, inv.dispLoop, fun _ => hsd⟩

theorem sysInv_reaches {es : List Nat} {s : BrainSys}
    (h : SysReaches (initSys es) s) : SysInv es s := by
  induction h with
  | refl => exact sysInv_init es
  | tail _ st ih => exact sysInv_step ih st

theorem evPayloads_trace (ds : List Nat) (b : Bool) :
    evPayloads (Dispatch.initEvt :: ds.map Dispatch.ev ++
      (if b then [Dispatch.shutdownEvt] else [])) = ds := by
  induction ds with
  | nil => cases b <;> simp [evPayloads]
  | cons d rest ih =>
      simpa [evPayloads] using ih

theorem drainReach5 : SysReaches (initSys [1, 2]) drainW5 := by
  have h1 : SysStep (initSys [1, 2]) drainW1 := SysStep.emit _ 1 [2] rfl rfl
  have h2 : SysStep drainW1 drainW2 := SysStep.emit _ 2 [] rfl rfl
  have h3 : SysStep drainW2 drainW3 := SysStep.sendShutdown _ rfl rfl
  have h4 : SysStep drainW3 drainW4 := SysStep.deliver _ 1 [2] rfl rfl
  have h5 : SysStep drainW4 drainW5 := SysStep.recvShutdown _ rfl rfl rfl
  exact Relation.ReflTransGen.tail (Relation.ReflTransGen.tail
    (Relation.ReflTransGen.tail (Relation.ReflTransGen.tail
      (Relation.ReflTransGen.tail Relation.ReflTransGen.refl h1) h2) h3) h4) h5

theorem drainReach9 : SysReaches (initSys [1, 2]) drainW9 := by
  have h6 : SysStep drainW5 drainW6 := SysStep.deliver _ 2 [] rfl rfl
  have h7 : SysStep drainW6 drainW7 := SysStep.closeLoop _ rfl rfl rfl
  have h8 : SysStep drainW7 drainW8 := SysStep.dispatchShutdown _ rfl rfl
  have h9 : SysStep drainW8 drainW9 := SysStep.ack _ rfl rfl
  exact Relation.ReflTransGen.tail (Relation.ReflTransGen.tail
    (Relation.ReflTransGen.tail (Relation.ReflTransGen.tail drainReach5 h6) h7) h8) h9

/-- Claim C1: in every run where events E1..Ek are emitted and then shutdown
is requested, any state in which the shutdown acknowledgment has been
signalled has the dispatch trace `InitEvent, E1, …, Ek, ShutdownEvent`: all
emitted events were delivered, in FIFO order, before the synthetic
`ShutdownEvent`, and the acknowledgment comes only after the
`ShutdownEvent` has been dispatched. -/
theorem shutdown_drains_then_acks (es : List Nat) (s : BrainSys)
    (hr : SysReaches (initSys es) s) (ha : s.acked = true) :
    s.dispatched = Dispatch.initEvt :: es.map Dispatch.ev ++ [Dispatch.shutdownEvt] ∧
    s.shutdownDispatched = true := by
  have inv := sysInv_reaches hr
  have hsd := inv.ackDisp ha
  have hlc := inv.dispLoop hsd
  obtain ⟨hic, hq⟩ := inv.loopInput hlc
  have hrecv : s.shutdownReceived = true := by rw [← inv.inputRecv]; exact hic
  have hem := inv.sentDone (inv.recvSent hrecv)
  obtain ⟨ds, hd, hsum⟩ := inv.trace
  rw [hq, hem] at hsum
  simp only [List.append_nil] at hsum
  refine ⟨?_, hsd⟩
  rw [hd, hsd, hsum]
  simp

theorem shutdown_drains_then_acks_witness :
    SysReaches (initSys [1, 2]) drainW9 ∧ drainW9.acked = true ∧
    drainW9.dispatched =
      Dispatch.initEvt :: [1, 2].map Dispatch.ev ++ [Dispatch.shutdownEvt] :=
  ⟨drainReach9, rfl, (shutdown_drains_then_acks [1, 2] drainW9 drainReach9 rfl).1⟩

/-- Claim C5: in every reachable state, the events delivered to the consumer
loop, the events still buffered and the events not yet accepted concatenate,
in order, to the full emission sequence — no event is dropped and FIFO order
is preserved — and once the queue has signalled closure every accepted event
has already been flushed to the consumer. -/
theorem queue_fifo_no_drop (es : List Nat) (s : BrainSys)
    (hr : SysReaches (initSys es) s) :
    evPayloads s.dispatched ++ s.queue ++ s.emitted = es ∧
    (s.loopClosed = true → evPayloads s.dispatched = es) := by
  have inv := sysInv_reaches hr
  obtain ⟨ds, hd, hsum⟩ := inv.trace
  have hev : evPayloads s.dispatched = ds := by
    rw [hd]
    exact evPayloads_trace ds _
  refine ⟨by rw [hev]; exact hsum, ?_⟩
  intro hlc
  obtain ⟨hic, hq⟩ := inv.loopInput hlc
  have hrecv : s.shutdownReceived = true := by rw [← inv.inputRecv]; exact hic
  have hem := inv.sentDone (inv.recvSent hrecv)
  rw [hq, hem] at hsum
  rw [hev]
  simpa using hsum

theorem queue_fifo_no_drop_witness :
    SysReaches (initSys [1, 2]) drainW9 ∧
    evPayloads drainW9.dispatched ++ drainW9.queue ++ drainW9.emitted = [1, 2] :=
  ⟨drainReach9, (queue_fifo_no_drop [1, 2] drainW9 drainReach9).1⟩

/-- Claim C9: once the dispatch loop has received a shutdown request (and so
has closed the Brain's `eventsInput` channel), any call to `Emit` performs a
send on a closed channel and panics instead of refusing the event
gracefully. -/
theorem emit_after_shutdown_panics (es : List Nat) (s : BrainSys) (e : Nat)
    (hr : SysReaches (initSys es) s) (hrecv : s.shutdownReceived = true) :
    EmitCall s e = EmitResult.panicked "send on closed channel" := by
  have inv := sysInv_reaches hr
  have hic : s.inputClosed = true := by rw [inv.inputRecv]; exact hrecv
  simp [EmitCall, hic]

theorem emit_after_shutdown_panics_witness :
    SysReaches (initSys [1, 2]) drainW5 ∧ drainW5.shutdownReceived = true ∧
    EmitCall drainW5 7 = EmitResult.panicked "send on closed channel" :=
  ⟨drainReach5, rfl, emit_after_shutdown_panics [1, 2] drainW5 7 drainReach5 rfl⟩

theorem runHandlerLoop_abort_at (pre post : List DHandler) (hi : DHandler)
    (hpre : ∀ h ∈ pre, h.setsAbort = false) (habort : hi.setsAbort = true) :
    (runHandlerLoop false (pre ++ hi :: post)).1 = pre.map DHandler.hid ++ [hi.hid] := by
  induction pre with
  | nil => simp [runHandlerLoop, habort]
  | cons h rest ih =>
      have hh : h.setsAbort = false := hpre h (by simp)
      have ih2 := ih (fun g hg => hpre g (by simp [hg]))
      simp [runHandlerLoop, hh, ih2]

theorem runHandlerLoop_no_abort (handlers : List DHandler)
    (hnone : ∀ h ∈ handlers, h.setsAbort = false) :
    (runHandlerLoop false handlers).1 = handlers.map DHandler.hid := by
  induction handlers with
  | nil => simp [runHandlerLoop]
  | cons h rest ih =>
      have hh : h.setsAbort = false := hnone h (by simp)
      have ih2 := ih (fun g hg => hnone g (by simp [hg]))
      simp [runHandlerLoop, hh, ih2]

/-- Claim C3: when the resolved handlers of an event are H1..Hn and Hi is
the first one to set the event's `AbortEarly` flag (via
`FinishEventContent`), the loop of `Brain.handleEvent` invokes exactly
H1..Hi and skips Hi+1..Hn, yet still invokes every completion callback of
the event afterwards in registration order; and each later event is
dispatched independently, so the flag does not affect it. -/
theorem abort_early_skips_rest (pre post : List DHandler) (hi : DHandler)
    (callbacks : List Nat) (later : List (List DHandler × List Nat))
    (hpre : ∀ h ∈ pre, h.setsAbort = false) (habort : hi.setsAbort = true) :
    handleEventRun (pre ++ hi :: post) callbacks =
      (pre.map DHandler.hid ++ [hi.hid], callbacks) ∧
    dispatchEvents ((pre ++ hi :: post, callbacks) :: later) =
      handleEventRun (pre ++ hi :: post) callbacks ::
        later.map (fun p => handleEventRun p.1 p.2) := by
  constructor
  · unfold handleEventRun
    rw [runHandlerLoop_abort_at pre post hi hpre habort]
  · rfl

theorem abort_early_skips_rest_witness :
    (∀ h ∈ [DHandler.mk 1 false none], h.setsAbort = false) ∧
    handleEventRun
      ([DHandler.mk 1 false none] ++ DHandler.mk 2 true none ::
        [DHandler.mk 3 false none]) [5, 6] = ([1, 2], [5, 6]) := by
  refine ⟨by decide, ?_⟩
  exact (abort_early_skips_rest [DHandler.mk 1 false none] [DHandler.mk 3 false none]
    (DHandler.mk 2 true none) [5, 6] [] (by decide) rfl).1

/-- Claim C6: the fault boundary installed by `newHandlerFunc` converts a
panic inside the handler body into the returned handler error
`handler panic: msg`, so the call always returns instead of propagating and
cannot terminate the dispatch loop; and a handler's non-nil error does not
stop its sibling handlers: when no handler aborts, every resolved handler of
the event is invoked, whatever the error values. -/
theorem panic_recovered_errors_nonfatal (returnsErr : Bool) (m : String)
    (handlers : List DHandler) (callbacks : List Nat)
    (hnoabort : ∀ h ∈ handlers, h.setsAbort = false) :
    wrappedHandlerCall returnsErr (CallOutcome.panicked m) =
      some ("handler panic: " ++ m) ∧
    handleEventRun handlers callbacks = (handlers.map DHandler.hid, callbacks) := by
  constructor
  · rfl
  · unfold handleEventRun
    rw [runHandlerLoop_no_abort handlers hnoabort]

theorem panic_recovered_errors_nonfatal_witness :
    (∀ h ∈ [DHandler.mk 1 false (some "fail"), DHandler.mk 2 false none],
      h.setsAbort = false) ∧
    wrappedHandlerCall true (CallOutcome.panicked "boom") =
      some ("handler panic: " ++ "boom") ∧
    handleEventRun [DHandler.mk 1 false (some "fail"), DHandler.mk 2 false none]
      [4] = ([1, 2], [4]) := by
  refine ⟨by decide, ?_, ?_⟩
  · exact (panic_recovered_errors_nonfatal true "boom" [] [] (by simp)).1
  · exact (panic_recovered_errors_nonfatal true "boom"
      [DHandler.mk 1 false (some "fail"), DHandler.mk 2 false none] [4]
      (by decide)).2

/-- Claim C7: `NewBrain` configures the handler timeout to one minute (a
zero timeout disables the deadline), and with a positive timeout the handler
invocation races against the derived deadline: when the deadline elapses
before the handler completes, `executeEventHandler` returns the context's
deadline-exceeded error instead of waiting for the handler. -/
theorem handler_timeout_deadline (handlerTimeout : Nat) (completion : Option Nat)
    (res : Option String) (hpos : 0 < handlerTimeout)
    (hlate : ∀ t, completion = some t → handlerTimeout < t) :
    executeEventHandler handlerTimeout completion res =
      some ExecOutcome.deadlineExceeded ∧
    newBrainHandlerTimeout = timeMinute ∧ 0 < newBrainHandlerTimeout ∧
    (∀ t r, executeEventHandler 0 (some t) r = some (ExecOutcome.completed r)) := by
  refine ⟨?_, rfl, by norm_num [newBrainHandlerTimeout, timeMinute],
    fun t r => by simp [executeEventHandler]⟩
  cases completion with
  | none => simp [executeEventHandler, hpos]
  | some t =>
      have h := hlate t rfl
      have h2 : ¬ t < handlerTimeout := by omega
      simp [executeEventHandler, hpos, h2]

theorem handler_timeout_deadline_witness :
    0 < newBrainHandlerTimeout ∧
    executeEventHandler newBrainHandlerTimeout none none =
      some ExecOutcome.deadlineExceeded := by
  have hpos : 0 < newBrainHandlerTimeout := by
    norm_num [newBrainHandlerTimeout, timeMinute]
  exact ⟨hpos, (handler_timeout_deadline newBrainHandlerTimeout none none hpos
    (fun t ht => nomatch ht)).1⟩

/-- Claim C8, evaluated on the code: after a first successful `Close`, the
CLI adapter's second `Close` does return the error `already closed`, but
`DiscordAdapter.Close` is `return nil`, so its second call (like every call)
returns no error — the code contradicts the claim and its own documentation
comment, which promises an error for repeated calls. -/
theorem discord_second_close_no_error :
    (cliClose (cliClose (CLIAdapterState.mk true) none).2 none).1 =
      some "already closed" ∧
    discordClose 0 = none ∧ discordClose 1 = none :=
  ⟨rfl, rfl, rfl⟩

/-- Claim C10: for a key absent from the in-memory map, `Storage.Get` with a
nil target returns `(false, nil)` without decoding, while with a non-nil
target it decodes the nil byte slice of the missing key, which fails with
the JSON scanner error, and therefore returns `(false, non-nil error)`. -/
theorem storage_get_missing_key (m : InMemory) (key : String)
    (habs : m.data.lookup key = none) :
    storageGet m key true = (false, none) ∧
    storageGet m key false =
      (false, some "Failed to Decode value unexpected end of JSON input ") := by
  constructor <;>
    simp [storageGet, inMemoryGet, habs, jsonUnmarshal, skipJsonSpace]

theorem checkHandlerParams_ok_facts {env : TypeEnv} {f : FuncShape} {r : Nat × Bool}
    (h : checkHandlerParams env f = .ok r) :
    ¬ f.params.length = 0 ∧ ¬ f.params.length > 2 ∧
    env.isPtr (f.params.getD (f.params.length - 1) 0) = false ∧
    (f.params.length = 2 → env.implsContext (f.params.getD 0 0) = true) := by
  unfold checkHandlerParams at h
  dsimp only at h
  split_ifs at h with h1 h2 h3 h4
  push_neg at h1
  simp only [not_and, not_not] at h3
  simp only [Bool.not_eq_true] at h4
  exact ⟨h1.1, by omega, h4, fun h2' => h3 h2'⟩

theorem checkHandlerParams_error_len {env : TypeEnv} {f : FuncShape} {e : String}
    (h : checkHandlerParams env f = .error e) : 0 < e.length := by
  unfold checkHandlerParams at h
  dsimp only at h
  split_ifs at h
  all_goals simp only [Except.error.injEq] at h
  all_goals subst h
  all_goals decide

theorem checkHandlerReturnValues_ok_facts {env : TypeEnv} {f : FuncShape} {b : Bool}
    (h : checkHandlerReturnValues env f = .ok b) :
    ¬ f.results.length > 1 ∧ ∀ r, f.results = [r] → env.implsError r = true := by
  obtain ⟨ps, rs⟩ := f
  cases rs with
  | nil => exact ⟨by simp, fun r hr => by cases hr⟩
  | cons r1 rest =>
      cases rest with
      | nil =>
          constructor
          · simp
          · intro r' hr'
            simp only [List.cons.injEq, and_true] at hr'
            subst hr'
            have h2 : (if env.implsError r1 = true then (Except.ok true : Except String Bool)
                else Except.error
                  "if the event handler has a return value it must implement the error interface") =
                Except.ok b := h
            cases himpl : env.implsError r1 with
            | true => rfl
            | false => rw [himpl] at h2; simp at h2
      | cons r2 rest2 => exact Except.noConfusion h

theorem checkHandlerReturnValues_error_len {env : TypeEnv} {f : FuncShape} {e : String}
    (h : checkHandlerReturnValues env f = .error e) : 0 < e.length := by
  obtain ⟨ps, rs⟩ := f
  cases rs with
  | nil => exact Except.noConfusion h
  | cons r1 rest =>
      cases rest with
      | nil =>
          have h2 : (if env.implsError r1 = true then (Except.ok true : Except String Bool)
              else Except.error
                "if the event handler has a return value it must implement the error interface") =
              Except.error e := h
          split_ifs at h2
          simp only [Except.error.injEq] at h2
          subst h2
          decide
      | cons r2 rest2 =>
          have h2 : (Except.error "event handler has more than one return value" :
              Except String Bool) = Except.error e := h
          simp only [Except.error.injEq] at h2
          subst h2
          decide

theorem registerHandler_ok_not_invalid {env : TypeEnv} {entries ent : RegEntries}
    {f : FuncShape} {hid : Nat}
    (hok : registerHandler env entries true f hid = .ok ent) :
    ¬ invalidShape env f := by
  unfold registerHandler at hok
  rw [if_neg (by simp)] at hok
  cases hcp : checkHandlerParams env f with
  | error e => rw [hcp] at hok; exact Except.noConfusion hok
  | ok r =>
      obtain ⟨et, wc⟩ := r
      simp only [hcp] at hok
      cases hcr : checkHandlerReturnValues env f with
      | error e => simp only [hcr] at hok; exact Except.noConfusion hok
      | ok b =>
          have hp := checkHandlerParams_ok_facts hcp
          have hr := checkHandlerReturnValues_ok_facts hcr
          intro hinv
          rcases hinv with h0 | h2 | hptr | hctx | hret | ⟨r, hrs, herr⟩
          · exact hp.1 h0
          · exact hp.2.1 h2
          · rw [hp.2.2.1] at hptr; cases hptr
          · have hc := hp.2.2.2 hctx.1; rw [hctx.2] at hc; cases hc
          · exact hr.1 hret
          · have hc := hr.2 r hrs; rw [herr] at hc; cases hc

theorem registerHandler_error_len {env : TypeEnv} {entries : RegEntries}
    {f : FuncShape} {hid : Nat} {e : String}
    (herr : registerHandler env entries true f hid = .error e) : 0 < e.length := by
  unfold registerHandler at herr
  rw [if_neg (by simp)] at herr
  cases hcp : checkHandlerParams env f with
  | error e1 =>
      simp only [hcp] at herr
      have hlen := checkHandlerParams_error_len hcp
      simp only [Except.error.injEq] at herr
      rwa [herr] at hlen
  | ok r =>
      obtain ⟨et, wc⟩ := r
      simp only [hcp] at herr
      cases hcr : checkHandlerReturnValues env f with
      | error e1 =>
          simp only [hcr] at herr
          have hlen := checkHandlerReturnValues_error_len hcr
          simp only [Except.error.injEq] at herr
          rwa [herr] at hlen
      | ok b => simp only [hcr] at herr; exact Except.noConfusion herr

/-- Claim C4: for every function value whose shape is invalid — zero or more
than two parameters, pointer-typed payload (last) parameter, two parameters
whose first does not implement `context.Context`, more than one return
value, or a single return value not implementing `error` —
`Brain.RegisterHandler` appends one descriptive (non-empty) error to the
Brain's `RegistrationErrs` list, returns normally instead of panicking or
raising, and leaves the handler registry unchanged. -/
theorem register_invalid_shape_collects_error (env : TypeEnv) (st : RegState)
    (f : FuncShape) (hid : Nat) (hinv : invalidShape env f) :
    ∃ e, 0 < e.length ∧
      RegisterHandler env st true f hid =
        { st with registrationErrs := st.registrationErrs ++ [e] } := by
  cases hr : registerHandler env st.entries true f hid with
  | error e =>
      exact ⟨e, registerHandler_error_len hr, by simp [RegisterHandler, hr]⟩
  | ok ent => exact absurd hinv (registerHandler_ok_not_invalid hr)

theorem register_invalid_shape_collects_error_witness :
    invalidShape cexEnv (FuncShape.mk [] []) ∧
    ∃ e, 0 < e.length ∧
      RegisterHandler cexEnv (RegState.mk [] []) true (FuncShape.mk [] []) 7 =
        { RegState.mk [] [] with registrationErrs := [] ++ [e] } :=
  ⟨Or.inl rfl,
    register_invalid_shape_collects_error cexEnv (RegState.mk [] [])
      (FuncShape.mk [] []) 7 (Or.inl rfl)⟩

theorem storage_get_missing_key_witness :
    (InMemory.mk []).data.lookup "test" = none ∧
    storageGet (InMemory.mk []) "test" true = (false, none) ∧
    storageGet (InMemory.mk []) "test" false =
      (false, some "Failed to Decode value unexpected end of JSON input ") := by
  have h := storage_get_missing_key (InMemory.mk []) "test" rfl
  exact ⟨rfl, h.1, h.2⟩

theorem foldl_append_flatten {α β : Type} (g : List β → α → List β) (c : α → List β)
    (hg : ∀ acc p, g acc p = acc ++ c p) (l : List α) (acc : List β) :
    List.foldl g acc l = acc ++ (l.map c).flatten := by
  induction l generalizing acc with
  | nil => simp
  | cons p rest ih =>
      rw [List.foldl_cons, hg, ih, List.map_cons, List.flatten_cons, List.append_assoc]

theorem determineHandlers_eq (env : TypeEnv) (iter : RegEntries) (T : Nat) :
    determineHandlers env iter T = (iter.map (entryContrib env T)).flatten := by
  unfold determineHandlers
  have hg : ∀ (acc : List Nat) (p : Nat × List Nat),
      (let acc1 := if p.1 = T then acc ++ p.2 else acc
       if env.isInterface p.1 ∧ env.implements T p.1 then acc1 ++ p.2 else acc1) =
      acc ++ entryContrib env T p := by
    intro acc p
    dsimp only
    simp only [entryContrib]
    split_ifs <;> simp [List.append_assoc]
  rw [foldl_append_flatten _ (entryContrib env T) hg iter []]
  simp

theorem entryContrib_append (env : TypeEnv) (T k : Nat) (a b : List Nat) :
    (entryContrib env T (k, a ++ b) : Multiset Nat) =
      (entryContrib env T (k, a) : Multiset Nat) + (entryContrib env T (k, b) : Multiset Nat) := by
  simp only [entryContrib]
  split_ifs <;> simp [← Multiset.coe_add] <;> abel

theorem contribMs_addToEntries (env : TypeEnv) (T : Nat) (e : RegEntries) (t h : Nat) :
    (((addToEntries e t h).map (entryContrib env T)).flatten : Multiset Nat) =
      ((e.map (entryContrib env T)).flatten : Multiset Nat) +
        (entryContrib env T (t, [h]) : Multiset Nat) := by
  induction e with
  | nil => simp [addToEntries]
  | cons q rest ih =>
      obtain ⟨q1, q2⟩ := q
      by_cases hq : q1 = t
      · rw [show addToEntries ((q1, q2) :: rest) t h = (q1, q2 ++ [h]) :: rest from by
          simp [addToEntries, hq]]
        simp only [List.map_cons, List.flatten_cons, ← Multiset.coe_add]
        rw [entryContrib_append, hq]
        abel
      · rw [show addToEntries ((q1, q2) :: rest) t h =
            (q1, q2) :: addToEntries rest t h from by simp [addToEntries, hq]]
        simp only [List.map_cons, List.flatten_cons, ← Multiset.coe_add]
        rw [ih]
        abel

theorem contribMs_buildEntries (env : TypeEnv) (T : Nat) (regs : RegSeq) :
    (((buildEntries regs).map (entryContrib env T)).flatten : Multiset Nat) =
      (exactClass regs T : Multiset Nat) + (ifaceClass env regs T : Multiset Nat) := by
  induction regs using List.reverseRecOn with
  | nil => simp [buildEntries, exactClass, keyClass, ifaceClass]
  | append_singleton regs p ih =>
      have hb : buildEntries (regs ++ [p]) = addToEntries (buildEntries regs) p.1 p.2 := by
        simp [buildEntries]
      rw [hb, contribMs_addToEntries, ih]
      obtain ⟨pt, ph⟩ := p
      simp only [exactClass, keyClass, ifaceClass, List.filter_append, List.map_append,
        entryContrib, ← Multiset.coe_add]
      by_cases c1 : pt = T
      · rw [c1]
        by_cases c2a : env.isInterface T = true <;>
          by_cases c2b : env.implements T T = true <;>
            simp [c2a, c2b, List.filter, ← Multiset.coe_add,
              ← Multiset.singleton_add] <;> abel
      · have hbeq : (pt == T) = false := by simp [c1]
        by_cases c2a : env.isInterface pt = true <;>
          by_cases c2b : env.implements T pt = true <;>
            simp [c1, c2a, c2b, hbeq, List.filter, ← Multiset.coe_add,
              ← Multiset.singleton_add] <;> abel

theorem determineHandlers_union (env : TypeEnv) (regs : RegSeq) (T : Nat)
    (iter : RegEntries) (hp : iter.Perm (buildEntries regs)) :
    (determineHandlers env iter T).Perm (exactClass regs T ++ ifaceClass env regs T) := by
  rw [← Multiset.coe_eq_coe, determineHandlers_eq]
  have h1 : ((iter.map (entryContrib env T)).flatten : Multiset Nat) =
      (((buildEntries regs).map (entryContrib env T)).flatten : Multiset Nat) :=
    Multiset.coe_eq_coe.mpr ((hp.map _).flatten)
  rw [h1, contribMs_buildEntries]
  exact Multiset.coe_add _ _

theorem entryHandlers_addToEntries (e : RegEntries) (t h k : Nat) :
    entryHandlers (addToEntries e t h) k =
      if k = t then entryHandlers e k ++ [h] else entryHandlers e k := by
  induction e with
  | nil =>
      by_cases hk : k = t
      · simp [addToEntries, entryHandlers, List.lookup, hk]
      · have hb : (k == t) = false := by simp [hk]
        simp [addToEntries, entryHandlers, List.lookup, hb, hk]
  | cons q rest ih =>
      obtain ⟨q1, q2⟩ := q
      have hhead : ∀ (l : List (Nat × List Nat)), (k == q1) = false →
          entryHandlers ((q1, q2) :: l) k = entryHandlers l k := by
        intro l hb
        simp [entryHandlers, List.lookup, hb]
      by_cases hq : q1 = t
      · rw [show addToEntries ((q1, q2) :: rest) t h = (q1, q2 ++ [h]) :: rest from by
          simp [addToEntries, hq]]
        by_cases hk : k = q1
        · simp [entryHandlers, List.lookup, hk, hq]
        · have hb : (k == q1) = false := by simp [hk]
          have hkt : ¬ k = t := fun hc => hk (hc.trans hq.symm)
          simp [entryHandlers, List.lookup, hb, hkt]
      · rw [show addToEntries ((q1, q2) :: rest) t h =
            (q1, q2) :: addToEntries rest t h from by simp [addToEntries, hq]]
        by_cases hk : k = q1
        · have hkt : ¬ k = t := fun hc => hq (hk.symm.trans hc)
          simp [entryHandlers, List.lookup, hk, hkt, hq]
        · have hb : (k == q1) = false := by simp [hk]
          rw [hhead _ hb, ih, hhead rest hb]

theorem entryHandlers_buildEntries (regs : RegSeq) (k : Nat) :
    entryHandlers (buildEntries regs) k = keyClass regs k := by
  induction regs using List.reverseRecOn with
  | nil => simp [buildEntries, entryHandlers, keyClass, List.lookup]
  | append_singleton regs p ih =>
      obtain ⟨pt, ph⟩ := p
      rw [show buildEntries (regs ++ [(pt, ph)]) =
          addToEntries (buildEntries regs) pt ph from by simp [buildEntries]]
      rw [entryHandlers_addToEntries, ih]
      by_cases hk : k = pt
      · simp [keyClass, List.filter_append, hk]
      · have hb : (pt == k) = false := by
          have hnk : ¬ pt = k := fun hc => hk hc.symm
          simp [hnk]
        simp [keyClass, List.filter_append, hk, hb]

theorem entryKeys_addToEntries (e : RegEntries) (t h : Nat) :
    entryKeys (addToEntries e t h) =
      if t ∈ entryKeys e then entryKeys e else entryKeys e ++ [t] := by
  induction e with
  | nil => simp [addToEntries, entryKeys]
  | cons q rest ih =>
      obtain ⟨q1, q2⟩ := q
      by_cases hq : q1 = t
      · rw [show addToEntries ((q1, q2) :: rest) t h = (q1, q2 ++ [h]) :: rest from by
          simp [addToEntries, hq]]
        simp [entryKeys, hq]
      · rw [show addToEntries ((q1, q2) :: rest) t h =
            (q1, q2) :: addToEntries rest t h from by simp [addToEntries, hq]]
        have hnt : ¬ t = q1 := fun hc => hq hc.symm
        simp only [entryKeys] at ih ⊢
        by_cases hm : t ∈ List.map Prod.fst rest <;> simp [ih, hm, hnt]

theorem entryKeys_nodup (regs : RegSeq) : (entryKeys (buildEntries regs)).Nodup := by
  induction regs using List.reverseRecOn with
  | nil => simp [buildEntries, entryKeys]
  | append_singleton regs p ih =>
      rw [show buildEntries (regs ++ [p]) = addToEntries (buildEntries regs) p.1 p.2 from by
        simp [buildEntries]]
      rw [entryKeys_addToEntries]
      by_cases hm : p.1 ∈ entryKeys (buildEntries regs)
      · simpa [hm] using ih
      · simp [hm, List.nodup_append, ih]

theorem lookup_none_of_not_mem (e : RegEntries) (k : Nat)
    (hk : ¬ k ∈ entryKeys e) : List.lookup k e = none := by
  induction e with
  | nil => rfl
  | cons q rest ih =>
      obtain ⟨q1, q2⟩ := q
      simp only [entryKeys, List.map_cons, List.mem_cons, not_or] at hk
      have hb : (k == q1) = false := by simp [hk.1]
      have h2 : ¬ k ∈ entryKeys rest := by simpa [entryKeys] using hk.2
      simp [List.lookup, hb, ih h2]

theorem mem_of_key (e : RegEntries) (k : Nat) (hk : k ∈ entryKeys e) :
    (k, entryHandlers e k) ∈ e := by
  induction e with
  | nil => simp [entryKeys] at hk
  | cons q rest ih =>
      obtain ⟨q1, q2⟩ := q
      by_cases hq : k = q1
      · simp [entryHandlers, List.lookup, hq]
      · have hb : (k == q1) = false := by simp [hq]
        have hk2 : k ∈ entryKeys rest := by
          simpa [entryKeys, hq] using hk
        have hmem := ih hk2
        have heq : entryHandlers ((q1, q2) :: rest) k = entryHandlers rest k := by
          simp [entryHandlers, List.lookup, hb]
        rw [heq]
        exact List.mem_cons_of_mem _ hmem

theorem determineHandlers_block (env : TypeEnv) (regs : RegSeq) (T k : Nat)
    (iter : RegEntries) (hp : iter.Perm (buildEntries regs))
    (hcontrib : entryContrib env T (k, keyClass regs k) = keyClass regs k) :
    ∃ pre post, determineHandlers env iter T = pre ++ keyClass regs k ++ post := by
  by_cases hk : k ∈ entryKeys (buildEntries regs)
  · have hmem : (k, entryHandlers (buildEntries regs) k) ∈ buildEntries regs :=
      mem_of_key _ _ hk
    rw [entryHandlers_buildEntries] at hmem
    have hmem2 : (k, keyClass regs k) ∈ iter := hp.mem_iff.mpr hmem
    obtain ⟨l1, l2, hiter⟩ := List.append_of_mem hmem2
    refine ⟨(l1.map (entryContrib env T)).flatten,
      (l2.map (entryContrib env T)).flatten, ?_⟩
    rw [determineHandlers_eq, hiter]
    simp [hcontrib, List.flatten_append]
  · have hkc : keyClass regs k = [] := by
      have h1 := entryHandlers_buildEntries regs k
      rw [entryHandlers, lookup_none_of_not_mem _ _ hk] at h1
      simpa using h1.symm
    exact ⟨determineHandlers env iter T, [], by simp [hkc]⟩

/-- Claim C2 (amended): for every concrete (non-interface) runtime event
type, `determineHandlers` run with any map iteration order returns exactly
the union (as a multiset) of class (a) — handlers registered under exactly
the runtime type — and class (b) — handlers registered under any interface
type the runtime type implements; class (a) appears as one contiguous block
in registration order, and the class-(b) handlers of each single interface
type appear as one contiguous block in registration order, but the relative
order of blocks of different registered types follows the unspecified map
iteration order, so the order of class (b) as a whole need not be
registration order. -/
theorem determineHandlers_amended (env : TypeEnv) (regs : RegSeq) (T : Nat)
    (iter : RegEntries) (hp : iter.Perm (buildEntries regs))
    (hT : env.isInterface T = false) :
    (determineHandlers env iter T).Perm (exactClass regs T ++ ifaceClass env regs T) ∧
    (∃ pre post, determineHandlers env iter T = pre ++ exactClass regs T ++ post) ∧
    (∀ k, env.isInterface k = true → env.implements T k = true →
      ∃ pre post, determineHandlers env iter T = pre ++ keyClass regs k ++ post) := by
  refine ⟨determineHandlers_union env regs T iter hp, ?_, ?_⟩
  · have hcontrib : entryContrib env T (T, keyClass regs T) = keyClass regs T := by
      simp [entryContrib, hT]
    exact determineHandlers_block env regs T T iter hp hcontrib
  · intro k hik himpl
    have hkT : ¬ k = T := fun hc => by rw [hc, hT] at hik; cases hik
    have hcontrib : entryContrib env T (k, keyClass regs k) = keyClass regs k := by
      simp [entryContrib, hkT, hik, himpl]
    exact determineHandlers_block env regs T k iter hp hcontrib

theorem cexPerm : cexIter.Perm (buildEntries cexRegs) := by
  rw [show buildEntries cexRegs = [(1, [10]), (2, [20])] from rfl]
  exact List.Perm.swap _ _ _

/-- Claim C2 counterexample: handler 10 is registered under interface type 1
and handler 20 afterwards under interface type 2, both implemented by the
concrete runtime type 0, so the registration order of class (b) is
[10, 20]; the legal Go map iteration order that visits the entry of
interface 2 before that of interface 1 makes `determineHandlers` return
[20, 10] — within class (b) the returned order differs from registration
order, refuting the claim as stated. -/
theorem determineHandlers_order_counterexample :
    cexIter.Perm (buildEntries cexRegs) ∧
    ifaceClass cexEnv cexRegs 0 = [10, 20] ∧
    determineHandlers cexEnv cexIter 0 = [20, 10] ∧
    determineHandlers cexEnv cexIter 0 ≠ ifaceClass cexEnv cexRegs 0 :=
  ⟨cexPerm, by decide, by decide, by decide⟩

theorem determineHandlers_amended_witness :
    cexIter.Perm (buildEntries cexRegs) ∧ cexEnv.isInterface 0 = false ∧
    (determineHandlers cexEnv cexIter 0).Perm
      (exactClass cexRegs 0 ++ ifaceClass cexEnv cexRegs 0) :=
  ⟨cexPerm, rfl, (determineHandlers_amended cexEnv cexRegs 0 cexIter cexPerm rfl).1⟩

end Botty
